import Mathlib

/-!
Verification of the UpdateHub agent's update lifecycle engine.

This file gives a shallow embedding of the state handlers in
src/updatehub/states.go, the daemon loop (Daemon.Run), and the probe
client tail of src/client/update.go, and proves properties of the
embedding.  Machine integers (Go int, int64, time.Duration in
nanoseconds, Unix timestamps in nanoseconds) are modelled as Int;
fallible operations return Option or Except; the outcomes of the
external collaborators (sha256 check, object handlers, the
install-if-different policy, the active/inactive backend, the
supported-hardware check) are inputs to the handler functions, and the
handler functions additionally return the ordered trace of collaborator
operations they invoked.  Go loops whose termination is not syntactic
are embedded with an explicit fuel argument, with none denoting fuel
exhaustion, so that divergence of the source loop is expressed as
"no amount of fuel yields a result".
-/

/-- Error values of the agent.  The constructor records whether the error
is fatal (NewFatalError) or transient (NewTransientError) and carries the
underlying messages; a transient error wrapping utils.MergeErrorList of a
list of errors carries that list.  Modelled from the spec: the error
constructors and the IsFatal method live in a source file that was not
provided; states.go calls NewTransientError and NewFatalError, and
ErrorState.Handle branches on IsFatal, with transient errors returning the
machine to Idle and fatal ones producing Exit(1). -/
inductive UhError
  | transient (errs : List String)
  | fatal (errs : List String)
deriving DecidableEq

/-- IsFatal of an error value. -/
def UhError.isFatal : UhError → Bool
  | .transient _ => false
  | .fatal _ => true

/-- One object of an update, together with the outcomes its external
collaborators would produce for it during the install pipeline:
the sha256 re-check result, the Setup result, the InstallIfDifferent
Proceed result (a proceed flag and an optional error, as in Go), the
Install result and the Cleanup result.  A none outcome is a nil Go error. -/
structure InstallObject where
  sha256sum : String
  shaErr : Option String
  setupErr : Option String
  proceedInstall : Bool
  proceedErr : Option String
  installErr : Option String
  cleanupErr : Option String
deriving DecidableEq

/-- Update metadata: the ordered object groups and the package fingerprint
returned by PackageUID(). -/
structure UpdateMetadata where
  objects : List (List InstallObject)
  packageUID : String
deriving DecidableEq

/-- The active/inactive backend (activeinactive.Interface): the result of
Active(), and the result of the n-th SetActive call of a handler run. -/
structure ActiveInactive where
  active : Except String Int
  setActiveErr : Nat → Option String

/-- Error message produced by GetIndexOfObjectToBeInstalled for a bad
object-group count (states.go line 581). -/
def badCountMsg (md : UpdateMetadata) : String :=
  "update metadata must have 1 or 2 objects. Found " ++ toString md.objects.length

/-- GetIndexOfObjectToBeInstalled (states.go lines 579 to 597): rejects a
group count outside 1..2, consults Active() when there are two groups and
returns the inactive index (activeIndex - 1) * -1, and returns 0 for a
single group. -/
def GetIndexOfObjectToBeInstalled (aii : ActiveInactive) (md : UpdateMetadata) :
    Except String Int :=
  if md.objects.length < 1 ∨ md.objects.length > 2 then
    Except.error (badCountMsg md)
  else if md.objects.length = 2 then
    match aii.active with
    | Except.error e => Except.error e
    | Except.ok activeIndex => Except.ok ((activeIndex - 1) * (-1))
  else
    Except.ok 0

/-- Events traced by the installing handler: each collaborator invocation,
in program order.  The Nat is the position of the object within the chosen
group; the setup event records whether Setup returned nil. -/
inductive Ev
  | hwCheck
  | checkSha (i : Nat)
  | setup (i : Nat) (ok : Bool)
  | proceed (i : Nat)
  | install (i : Nat)
  | cleanup (i : Nat)
  | setActive (idx : Int)
deriving DecidableEq

/-- Next state produced by InstallingState.Handle. -/
inductive InstallResult
  | waitingForReboot (md : UpdateMetadata)
  | errorState (cause : UhError) (md : UpdateMetadata)
  | installed (md : UpdateMetadata)
deriving DecidableEq

/-- Go slice indexing with an int index; none models the out-of-range
panic. -/
def intGet (l : List (List InstallObject)) (idx : Int) :
    Option (List InstallObject) :=
  if idx < 0 then none else l.get? idx.toNat

/-- Error list collected for one object by the loop body of
InstallingState.Handle (states.go lines 446 to 463): the Proceed error,
then the Install error when Proceed asked to install, then the Cleanup
error. -/
def installErrorList (o : InstallObject) : List String :=
  (match o.proceedErr with | some e => [e] | none => [])
    ++ (if o.proceedInstall then
          (match o.installErr with | some e => [e] | none => [])
        else [])
    ++ (match o.cleanupErr with | some e => [e] | none => [])

/-- Events of one loop iteration that got past a successful Setup:
the sha check, Setup, Proceed, Install when Proceed asked for it, and
Cleanup, which the source always reaches on this path. -/
def objectEvents (o : InstallObject) (i : Nat) : List Ev :=
  [Ev.checkSha i, Ev.setup i true, Ev.proceed i]
    ++ (if o.proceedInstall then [Ev.install i] else [])
    ++ [Ev.cleanup i]

/-- Body of the object loop of InstallingState.Handle (states.go lines
433 to 477), for one object at position i of the chosen group.  Returns
the events of the iteration and, when the iteration makes the handler
return early to an Error state, the error cause.  A sha mismatch or a
Setup error returns immediately; Proceed, Install and Cleanup errors are
collected and merged after Cleanup; with two object groups SetActive is
invoked at the end of the iteration and its error also stops the loop. -/
def objectStep (numGroups : Nat) (idx : Int) (aii : ActiveInactive)
    (o : InstallObject) (i : Nat) : List Ev × Option UhError :=
  match o.shaErr with
  | some e => ([Ev.checkSha i], some (UhError.transient [e]))
  | none =>
    match o.setupErr with
    | some e => ([Ev.checkSha i, Ev.setup i false], some (UhError.transient [e]))
    | none =>
      match installErrorList o with
      | e :: es => (objectEvents o i, some (UhError.transient (e :: es)))
      | [] =>
        if numGroups = 2 then
          match aii.setActiveErr i with
          | some e =>
            (objectEvents o i ++ [Ev.setActive idx], some (UhError.transient [e]))
          | none => (objectEvents o i ++ [Ev.setActive idx], none)
        else
          (objectEvents o i, none)

/-- Object loop of InstallingState.Handle: iterate objectStep over the
chosen group, stopping at the first iteration that carries an error
cause.  Returns the whole event trace and the cause of an early return,
none when the loop completed. -/
def installLoop (numGroups : Nat) (idx : Int) (aii : ActiveInactive) :
    List InstallObject → Nat → List Ev × Option UhError
  | [], _ => ([], none)
  | o :: rest, i =>
    if (objectStep numGroups idx aii o i).2 = none then
      ((objectStep numGroups idx aii o i).1
          ++ (installLoop numGroups idx aii rest (i + 1)).1,
        (installLoop numGroups idx aii rest (i + 1)).2)
    else
      objectStep numGroups idx aii o i

/-- Handle of InstallingState (states.go lines 413 to 480).  Inputs: the
agent's lastInstalledPackageUID, the CheckSupportedHardware outcome, the
active/inactive backend and the update metadata.  The result is none when
the source would panic (chosen-group index out of range); otherwise it is
the next state, the trace of invoked collaborator operations, and the new
lastInstalledPackageUID.  The fingerprint check comes first; the
fingerprint is registered before any work; every error is wrapped as
transient. -/
def InstallingHandle (lastUID : String) (hardwareErr : Option String)
    (aii : ActiveInactive) (md : UpdateMetadata) :
    Option (InstallResult × List Ev × String) :=
  if md.packageUID = lastUID then
    some (InstallResult.waitingForReboot md, [], lastUID)
  else
    match hardwareErr with
    | some e =>
      some (InstallResult.errorState (UhError.transient [e]) md, [Ev.hwCheck],
        md.packageUID)
    | none =>
      match GetIndexOfObjectToBeInstalled aii md with
      | Except.error e =>
        some (InstallResult.errorState (UhError.transient [e]) md, [Ev.hwCheck],
          md.packageUID)
      | Except.ok idx =>
        match intGet md.objects idx with
        | none => none
        | some grp =>
          match (installLoop md.objects.length idx aii grp 0).2 with
          | some cause =>
            some (InstallResult.errorState cause md,
              Ev.hwCheck :: (installLoop md.objects.length idx aii grp 0).1,
              md.packageUID)
          | none =>
            some (InstallResult.installed md,
              Ev.hwCheck :: (installLoop md.objects.length idx aii grp 0).1,
              md.packageUID)

/-- Event trace of a fully successful run of the object loop: per object,
its events followed by one SetActive when there are two object groups. -/
def successEvents (numGroups : Nat) (idx : Int) :
    List InstallObject → Nat → List Ev
  | [], _ => []
  | o :: rest, i =>
    objectEvents o i ++ (if numGroups = 2 then [Ev.setActive idx] else [])
      ++ successEvents numGroups idx rest (i + 1)

/-- Projection of the error cause carried by an InstallResult. -/
def installResultCause : InstallResult → Option UhError
  | .errorState c _ => some c
  | _ => none

/-- State identities handled by the daemon loop, with the payload the
loop inspects: the error cause of an Error state and the exit code of an
Exit state. -/
inductive DState
  | idle
  | poll
  | updateCheck
  | downloading
  | installing
  | installedS
  | waitingForReboot
  | errorS (cause : UhError)
  | exitS (code : Int)
deriving DecidableEq

/-- Test for the Exit state id, as in state.ID() == UpdateHubStateExit. -/
def isExitState : DState → Bool
  | .exitS _ => true
  | _ => false

/-- Exit code extracted by the daemon from an Exit state; 0 otherwise,
matching the type-assertion fallback in Daemon.Run. -/
def exitCodeOf : DState → Int
  | .exitS c => c
  | _ => 0

/-- Handle of ErrorState (states.go lines 132 to 140): Exit(1) for a fatal
cause, Idle for a transient one. -/
def errorStateHandle (cause : UhError) : DState :=
  if cause.isFatal then DState.exitS 1 else DState.idle

/-- Daemon.Run with no external Stop call, over an abstract handler
function h and with explicit fuel.  Each iteration reports the current
state (first output list), then runs its handler; when the handler result
has the Exit id the loop returns its exit code.  The second output list is
every state the loop held in d.uh.State, in order.  none is fuel
exhaustion. -/
def daemonRun (h : DState → DState) : Nat → DState → Option (Int × List DState × List DState)
  | 0, _ => none
  | fuel + 1, st =>
    if isExitState (h st) then
      some (exitCodeOf (h st), [st], [st, h st])
    else
      match daemonRun h fuel (h st) with
      | none => none
      | some (c, rep, ent) => some (c, st :: rep, st :: ent)

/-- Tick condition evaluated by the PollState goroutine (states.go line
245): ticks > 0 && ticks % int64(interval / timeStep) == 0, with Go's
short-circuit evaluation, truncated division and truncated remainder.
The none results model the division-by-zero and remainder-by-zero runtime
panics. -/
def pollCond (interval timeStep ticks : Int) : Option Bool :=
  if ticks > 0 then
    if timeStep = 0 then none
    else if Int.tdiv interval timeStep = 0 then none
    else some (decide (Int.tmod ticks (Int.tdiv interval timeStep) = 0))
  else
    some false

/-- Polling loop of PollState.Handle (states.go lines 232 to 257) driven
for at most n ticks with no cancellation, starting from a given ticks
count.  Each tick increments ticks and evaluates the condition; a true
condition breaks with a transition to UpdateCheck.  Returns the final
ticks count and whether the transition fired; none models a panic. -/
def pollRun (interval timeStep : Int) : Nat → Int → Option (Int × Bool)
  | 0, ticks => some (ticks, false)
  | n + 1, ticks =>
    match pollCond interval timeStep (ticks + 1) with
    | none => none
    | some true => some (ticks + 1, true)
    | some false => pollRun interval timeStep n (ticks + 1)

/-- Settings fields used by the scheduling handlers.  Durations and
timestamps are in nanoseconds, as Go stores them. -/
structure Settings where
  pollingEnabled : Bool
  pollingInterval : Int
  extraPollingInterval : Int
  firstPoll : Int
  lastPoll : Int
  pollingRetries : Int
deriving DecidableEq

/-- Next state produced by UpdateCheckState.Handle: Downloading with the
descriptor, a one-off Poll state with an overridden interval, or Idle. -/
inductive UCResult
  | downloading (md : UpdateMetadata)
  | pollOneOff (interval : Int)
  | idle
deriving DecidableEq

/-- Truncation of a nanosecond timestamp to whole seconds, as performed by
time.Unix(t.Unix(), 0). -/
def unixSecTrunc (t : Int) : Int := (Int.fdiv t 1000000000) * 1000000000

/-- The nextPoll advancing loop of UpdateCheckState.Handle (states.go
lines 309 to 311): while nextPoll is before now, add the polling interval.
Fuel-indexed; none is fuel exhaustion. -/
def nextPollLoop (now interval : Int) : Nat → Int → Option Int
  | 0, start => if start < now then none else some start
  | fuel + 1, start =>
    if start < now then nextPollLoop now interval fuel (start + interval)
    else some start

/-- Handle of UpdateCheckState (states.go lines 289 to 327).  Inputs: the
probe outcome (descriptor option and extra-poll value, with -1 the probe
failure sentinel) and the two time.Now() observations, in order.  Resets
polling retries when the probe did not fail, stamps last_poll and clears
the extra interval, then dispatches: Downloading on a descriptor; a
one-off Poll when a positive extra poll lands before the projected regular
next poll; otherwise Idle with the retry counter incremented. -/
def UpdateCheckHandle (fuel : Nat) (s0 : Settings) (md : Option UpdateMetadata)
    (extraPoll : Int) (now1 now2 : Int) : Option (UCResult × Settings) :=
  let s2 : Settings :=
    { s0 with
      pollingRetries := if extraPoll ≠ -1 then 0 else s0.pollingRetries,
      lastPoll := now1, extraPollingInterval := 0 }
  match md with
  | some m => some (UCResult.downloading m, s2)
  | none =>
    if extraPoll > 0 then
      match nextPollLoop now2 s2.pollingInterval fuel (unixSecTrunc s2.firstPoll) with
      | none => none
      | some nextPoll =>
        if now2 + extraPoll < nextPoll then
          some (UCResult.pollOneOff extraPoll,
            { s2 with extraPollingInterval := extraPoll })
        else
          some (UCResult.idle, { s2 with pollingRetries := s2.pollingRetries + 1 })
    else
      some (UCResult.idle, { s2 with pollingRetries := s2.pollingRetries + 1 })

/-- Fuel that always suffices for the nextPoll loop when the polling
interval is positive. -/
def ucFuel (s : Settings) (now2 : Int) : Nat :=
  (now2 - unixSecTrunc s.firstPoll).toNat

/-- Modelled from the spec: the Controller's probe (UpdateHub.CheckUpdate,
whose source is not among the provided files) returns the sentinel
extra-poll value -1 exactly when the probe failed, and a failed probe
returns no descriptor; a returned descriptor therefore comes with a
non-negative extra-poll value. -/
def ProbeContract (md : Option UpdateMetadata) (extraPoll : Int) : Prop :=
  ∀ x, md = some x → 0 ≤ extraPoll

/-- Inputs determining processUpgradeResponse (src/client/update.go lines
97 to 117): the response status code, the body-read outcome, and the
body-parse outcome used on status 200. -/
structure ProbeResponse where
  statusCode : Int
  readErr : Option String
  parseResult : Except String UpdateMetadata

/-- Error message of CheckUpdate for a malformed Add-Extra-Poll header. -/
def extraPollHeaderErrMsg : String := "failed to parse extra poll header"

/-- processUpgradeResponse (src/client/update.go lines 97 to 117): a body
read error fails; status 200 parses the body into metadata; 404 means no
update and no error; any other status fails. -/
def processUpgradeResponse (r : ProbeResponse) :
    Except String (Option UpdateMetadata) :=
  match r.readErr with
  | some e => Except.error ("error reading response body: " ++ e)
  | none =>
    if r.statusCode = 200 then
      match r.parseResult with
      | Except.error e => Except.error ("failed to parse upgrade response: " ++ e)
      | Except.ok d => Except.ok (some d)
    else if r.statusCode = 404 then Except.ok none
    else Except.error "invalid response received from the server"

/-- strconv.ParseInt with base 10 and bit size 0 (64-bit int): an optional
sign followed by at least one decimal digit, rejected when the value does
not fit in int64. -/
def parseGoInt (s : String) : Option Int :=
  match s.data with
  | [] => none
  | c :: cs =>
    match (if c == '-' ∨ c == '+' then cs else c :: cs) with
    | [] => none
    | ds =>
      if ds.all Char.isDigit then
        let n : Nat := ds.foldl (fun a d => a * 10 + (d.toNat - 48)) 0
        let v : Int := if c == '-' then -(n : Int) else (n : Int)
        if -(2 ^ 63) ≤ v ∧ v ≤ 2 ^ 63 - 1 then some v else none
      else none

/-- Tail of UpdateClient.CheckUpdate after a successful HTTP exchange
(src/client/update.go lines 57 to 69): on a successful upgrade response,
a present Add-Extra-Poll header has its values joined and parsed, a parse
failure making the whole call fail with a zero duration and nil metadata;
the parsed value (or zero when the header is absent) is returned as the
extra-poll duration. -/
def checkUpdateResult (r : ProbeResponse) (header : Option (List String)) :
    Option UpdateMetadata × Int × Option String :=
  match processUpgradeResponse r with
  | Except.error e => (none, 0, some e)
  | Except.ok mdOpt =>
    match header with
    | none => (mdOpt, 0, none)
    | some v =>
      match parseGoInt (String.join v) with
      | none => (none, 0, some extraPollHeaderErrMsg)
      | some n => (mdOpt, n, none)

/-- Object for which every collaborator succeeds and the
install-if-different policy asks to install. -/
def oOk : InstallObject :=
  { sha256sum := "s", shaErr := none, setupErr := none, proceedInstall := true,
    proceedErr := none, installErr := none, cleanupErr := none }

/-- Object whose Setup fails. -/
def oBadSetup : InstallObject := { oOk with setupErr := some "se" }

/-- Active/inactive backend reporting slot 0 active and succeeding on
every SetActive call. -/
def aiiOk : ActiveInactive := { active := Except.ok 0, setActiveErr := fun _ => none }

/-- Descriptor with a single group whose single object fails Setup. -/
def mdSetupFail : UpdateMetadata := { objects := [[oBadSetup]], packageUID := "p" }

/-- Descriptor with a single group of one well-behaved object. -/
def mdOne : UpdateMetadata := { objects := [[oOk]], packageUID := "p" }

/-- Descriptor with two object groups whose inactive group holds two
objects. -/
def mdTwoGroups : UpdateMetadata :=
  { objects := [[oOk], [oOk, oOk]], packageUID := "p" }

/-- Descriptor with three object groups, an invalid count. -/
def mdThreeGroups : UpdateMetadata :=
  { objects := [[oOk], [oOk], [oOk]], packageUID := "p" }

/-- Trace of the two-group run of mdTwoGroups. -/
def midInstallTrace : List Ev :=
  [Ev.hwCheck, Ev.checkSha 0, Ev.setup 0 true, Ev.proceed 0, Ev.install 0,
   Ev.cleanup 0, Ev.setActive 1, Ev.checkSha 1, Ev.setup 1 true, Ev.proceed 1,
   Ev.install 1, Ev.cleanup 1, Ev.setActive 1]

/-- Settings snapshot with three accumulated polling retries. -/
def sRetries3 : Settings :=
  { pollingEnabled := true, pollingInterval := 10, extraPollingInterval := 0,
    firstPoll := 0, lastPoll := 0, pollingRetries := 3 }

/-- Settings snapshot with a positive polling interval of three
nanoseconds and no retries. -/
def sPos3 : Settings :=
  { pollingEnabled := true, pollingInterval := 3, extraPollingInterval := 0,
    firstPoll := 0, lastPoll := 0, pollingRetries := 0 }

/-- Settings snapshot with a zero polling interval. -/
def sZeroInterval : Settings := { sPos3 with pollingInterval := 0 }

/-- Daemon handler that runs ErrorState.Handle on Error states; the other
states are irrelevant to the runs considered and sent to Idle. -/
def hErrDaemon : DState → DState := fun s =>
  match s with
  | DState.errorS c => errorStateHandle c
  | _ => DState.idle

/-- Probe response with status 404: no update available, no error. -/
def rNotFound : ProbeResponse :=
  { statusCode := 404, readErr := none, parseResult := Except.error "x" }

/-- Helper: membership in the events of an iteration that passed Setup
always includes that object's Cleanup. -/
theorem cleanup_mem_objectEvents (o : InstallObject) (i : Nat) :
    Ev.cleanup i ∈ objectEvents o i := by
  simp [objectEvents]

/-- Helper: membership of a successful-Setup event in the events of one
iteration forces the event's index to be the iteration's. -/
theorem setup_mem_objectEvents (o : InstallObject) (i j : Nat)
    (h : Ev.setup i true ∈ objectEvents o j) : i = j := by
  by_cases hp : o.proceedInstall <;> simp [objectEvents, hp] at h <;> omega

/-- Helper: case analysis of one iteration of the object loop: either the
iteration stops the loop with an error cause and its events are one of the
four early shapes, or it completes with no cause and its events are the
object's events followed by a SetActive exactly when there are two
groups. -/
theorem objectStep_spec (numGroups : Nat) (idx : Int) (aii : ActiveInactive)
    (o : InstallObject) (j : Nat) :
    ((objectStep numGroups idx aii o j).2 ≠ none ∧
      ((objectStep numGroups idx aii o j).1 = [Ev.checkSha j] ∨
       (objectStep numGroups idx aii o j).1 = [Ev.checkSha j, Ev.setup j false] ∨
       (objectStep numGroups idx aii o j).1 = objectEvents o j ∨
       (objectStep numGroups idx aii o j).1 = objectEvents o j ++ [Ev.setActive idx]))
    ∨ ((objectStep numGroups idx aii o j).2 = none ∧
       (objectStep numGroups idx aii o j).1
         = objectEvents o j ++ (if numGroups = 2 then [Ev.setActive idx] else [])) := by
  unfold objectStep
  split
  · exact Or.inl ⟨by simp, Or.inl rfl⟩
  · split
    · exact Or.inl ⟨by simp, Or.inr (Or.inl rfl)⟩
    · split
      · exact Or.inl ⟨by simp, Or.inr (Or.inr (Or.inl rfl))⟩
      · split
        next hng =>
          split
          · exact Or.inl ⟨by simp, Or.inr (Or.inr (Or.inr rfl))⟩
          · exact Or.inr ⟨rfl, by simp [hng]⟩
        next hng =>
          exact Or.inr ⟨rfl, by simp [hng]⟩

/-- Helper: a successful-Setup event in one iteration's events is always
accompanied by that object's Cleanup event. -/
theorem objectStep_cleanup_of_setup (numGroups : Nat) (idx : Int)
    (aii : ActiveInactive) (o : InstallObject) (i j : Nat)
    (hs : Ev.setup i true ∈ (objectStep numGroups idx aii o j).1) :
    Ev.cleanup i ∈ (objectStep numGroups idx aii o j).1 := by
  rcases objectStep_spec numGroups idx aii o j with ⟨-, h | h | h | h⟩ | ⟨-, h⟩ <;>
    rw [h] at hs ⊢
  · simp at hs
  · simp at hs
  · have hij : i = j := setup_mem_objectEvents o i j hs
    subst hij
    exact cleanup_mem_objectEvents o i
  · rcases List.mem_append.mp hs with h1 | h1
    · have hij : i = j := setup_mem_objectEvents o i j h1
      subst hij
      exact List.mem_append.mpr (Or.inl (cleanup_mem_objectEvents o i))
    · simp at h1
  · rcases List.mem_append.mp hs with h1 | h1
    · have hij : i = j := setup_mem_objectEvents o i j h1
      subst hij
      exact List.mem_append.mpr (Or.inl (cleanup_mem_objectEvents o i))
    · by_cases hng : numGroups = 2 <;> simp [hng] at h1

/-- Helper: a successful-Setup event in the object-loop trace is always
accompanied by that object's Cleanup event in the same trace. -/
theorem installLoop_cleanup_of_setup (numGroups : Nat) (idx : Int)
    (aii : ActiveInactive) (i : Nat) :
    ∀ (objs : List InstallObject) (i0 : Nat),
    Ev.setup i true ∈ (installLoop numGroups idx aii objs i0).1 →
    Ev.cleanup i ∈ (installLoop numGroups idx aii objs i0).1 := by
  intro objs
  induction objs with
  | nil => intro i0 hs; simp [installLoop] at hs
  | cons o rest ih =>
    intro i0 hs
    by_cases hc : (objectStep numGroups idx aii o i0).2 = none
    · simp only [installLoop, if_pos hc, List.mem_append] at hs ⊢
      rcases hs with h1 | h2
      · exact Or.inl (objectStep_cleanup_of_setup numGroups idx aii o i i0 h1)
      · exact Or.inr (ih (i0 + 1) h2)
    · simp only [installLoop, if_neg hc] at hs ⊢
      exact objectStep_cleanup_of_setup numGroups idx aii o i i0 hs

/-- Claim C4: when the descriptor fingerprint equals
last_installed_package_uid, the Installing handler transitions to
WaitingForReboot carrying the same descriptor, with an empty operation
trace (no hardware check, no sha verification, no Setup, Install or
Cleanup) and with the stored fingerprint unchanged. -/
theorem installing_same_fingerprint_skip (lastUID : String)
    (hardwareErr : Option String) (aii : ActiveInactive) (md : UpdateMetadata)
    (h : md.packageUID = lastUID) :
    InstallingHandle lastUID hardwareErr aii md =
      some (InstallResult.waitingForReboot md, [], lastUID) := by
  unfold InstallingHandle
  rw [if_pos h]

/-- Witness for claim C4 at a concrete descriptor whose fingerprint is
already registered. -/
theorem installing_same_fingerprint_skip_w :
    InstallingHandle "p" none aiiOk mdOne =
      some (InstallResult.waitingForReboot mdOne, [], "p") :=
  installing_same_fingerprint_skip "p" none aiiOk mdOne rfl

/-- Claim C1, amended: in every Installing run, every object whose Setup
was invoked and returned nil has its Cleanup invoked before the handler
returns (a failed Setup returns immediately without Cleanup). -/
theorem installing_cleanup_follows_successful_setup
    (lastUID : String) (hardwareErr : Option String) (aii : ActiveInactive)
    (md : UpdateMetadata) (r : InstallResult) (evs : List Ev) (uid : String)
    (i : Nat)
    (h : InstallingHandle lastUID hardwareErr aii md = some (r, evs, uid))
    (hs : Ev.setup i true ∈ evs) :
    Ev.cleanup i ∈ evs := by
  unfold InstallingHandle at h
  split at h
  · simp only [Option.some.injEq, Prod.mk.injEq] at h
    obtain ⟨-, he, -⟩ := h
    subst he
    simp at hs
  · split at h
    · simp only [Option.some.injEq, Prod.mk.injEq] at h
      obtain ⟨-, he, -⟩ := h
      subst he
      simp at hs
    · split at h
      · simp only [Option.some.injEq, Prod.mk.injEq] at h
        obtain ⟨-, he, -⟩ := h
        subst he
        simp at hs
      · split at h
        · exact absurd h (by simp)
        · split at h <;>
          · simp only [Option.some.injEq, Prod.mk.injEq] at h
            obtain ⟨-, he, -⟩ := h
            subst he
            simp only [List.mem_cons] at hs ⊢
            rcases hs with h1 | h1
            · exact absurd h1 (by simp)
            · exact Or.inr (installLoop_cleanup_of_setup _ _ _ i _ 0 h1)

/-- Witness for claim C1 at a concrete single-object run whose Setup
succeeded. -/
theorem installing_cleanup_follows_successful_setup_w :
    Ev.cleanup 0 ∈ [Ev.hwCheck, Ev.checkSha 0, Ev.setup 0 true, Ev.proceed 0,
      Ev.install 0, Ev.cleanup 0] :=
  installing_cleanup_follows_successful_setup "" none aiiOk mdOne
    (InstallResult.installed mdOne)
    [Ev.hwCheck, Ev.checkSha 0, Ev.setup 0 true, Ev.proceed 0, Ev.install 0,
      Ev.cleanup 0] "p" 0 (by decide) (by decide)

/-- Counterexample to claim C1 as stated: a run whose single object's
Setup is invoked and fails ends with no Cleanup invocation for that
object. -/
theorem installing_setup_without_cleanup_cex :
    InstallingHandle "" none aiiOk mdSetupFail =
      some (InstallResult.errorState (UhError.transient ["se"]) mdSetupFail,
        [Ev.hwCheck, Ev.checkSha 0, Ev.setup 0 false], "p") ∧
    Ev.cleanup 0 ∉ [Ev.hwCheck, Ev.checkSha 0, Ev.setup 0 false] := by
  exact ⟨by decide, by decide⟩

/-- Helper: an iteration that does not stop the loop contributes the
object's events followed by a SetActive exactly when there are two
groups. -/
theorem objectStep_none_events (numGroups : Nat) (idx : Int)
    (aii : ActiveInactive) (o : InstallObject) (j : Nat)
    (hn : (objectStep numGroups idx aii o j).2 = none) :
    (objectStep numGroups idx aii o j).1
      = objectEvents o j ++ (if numGroups = 2 then [Ev.setActive idx] else []) := by
  rcases objectStep_spec numGroups idx aii o j with ⟨hne, -⟩ | ⟨-, h⟩
  · exact absurd hn hne
  · exact h

/-- Helper: a completed object loop's trace is exactly the successive
object events, each followed by a SetActive when there are two groups. -/
theorem installLoop_success_events (numGroups : Nat) (idx : Int)
    (aii : ActiveInactive) :
    ∀ (objs : List InstallObject) (i0 : Nat),
    (installLoop numGroups idx aii objs i0).2 = none →
    (installLoop numGroups idx aii objs i0).1
      = successEvents numGroups idx objs i0 := by
  intro objs
  induction objs with
  | nil => intro i0 _; simp [installLoop, successEvents]
  | cons o rest ih =>
    intro i0 hn
    by_cases hc : (objectStep numGroups idx aii o i0).2 = none
    · simp only [installLoop, if_pos hc] at hn ⊢
      rw [objectStep_none_events numGroups idx aii o i0 hc, ih (i0 + 1) hn]
      simp [successEvents]
    · simp only [installLoop, if_neg hc] at hn
      exact absurd hn hc

/-- Claim C2, amended: in a successful Installing run over a two-group
descriptor, SetActive with the newly installed index is invoked once at
the end of each object's iteration — for a chosen group with several
objects this happens between objects, not only after the whole group. -/
theorem installing_setActive_after_each_object
    (lastUID : String) (aii : ActiveInactive) (md : UpdateMetadata)
    (evs : List Ev) (uid : String) (idx : Int) (grp : List InstallObject)
    (hidx : GetIndexOfObjectToBeInstalled aii md = Except.ok idx)
    (hgrp : intGet md.objects idx = some grp)
    (h : InstallingHandle lastUID none aii md =
      some (InstallResult.installed md, evs, uid)) :
    evs = Ev.hwCheck :: successEvents md.objects.length idx grp 0 := by
  unfold InstallingHandle at h
  split at h
  · simp at h
  · dsimp only at h
    rw [hidx] at h
    dsimp only at h
    rw [hgrp] at h
    dsimp only at h
    split at h
    · simp at h
    next heq =>
      simp only [Option.some.injEq, Prod.mk.injEq] at h
      obtain ⟨-, he, -⟩ := h
      rw [installLoop_success_events md.objects.length idx aii grp 0 heq] at he
      exact he.symm

/-- Witness for the amended claim C2 at a two-group descriptor whose
chosen group has two objects. -/
theorem installing_setActive_after_each_object_w :
    midInstallTrace = Ev.hwCheck :: successEvents 2 1 [oOk, oOk] 0 :=
  installing_setActive_after_each_object "" aiiOk mdTwoGroups midInstallTrace
    "p" 1 [oOk, oOk] (by rfl) (by decide) (by decide)

/-- Counterexample to claim C2 as stated: in a successful two-group run
whose chosen group has two objects, SetActive (trace position 6) is
invoked before the second object's Install (trace position 10), so the
active slot is advanced mid-install. -/
theorem installing_setActive_mid_install_cex :
    (InstallingHandle "" none aiiOk mdTwoGroups).map (fun r => r.2.1)
        = some midInstallTrace ∧
    midInstallTrace.findIdx? (fun e => decide (e = Ev.setActive 1)) = some 6 ∧
    midInstallTrace.findIdx? (fun e => decide (e = Ev.install 1)) = some 10 ∧
    (6 : Nat) < 10 := by
  exact ⟨by decide, by decide, by decide, by decide⟩

/-- Claim C3, amended: a descriptor whose object-group count is outside
one and two makes the Installing handler return an Error state whose
cause is classified transient, so the Error state's handler yields Idle
rather than Exit(1). -/
theorem installing_bad_object_count_transient
    (lastUID : String) (aii : ActiveInactive) (md : UpdateMetadata)
    (hcount : md.objects.length < 1 ∨ md.objects.length > 2)
    (hfp : md.packageUID ≠ lastUID) :
    InstallingHandle lastUID none aii md =
      some (InstallResult.errorState (UhError.transient [badCountMsg md]) md,
        [Ev.hwCheck], md.packageUID) ∧
    errorStateHandle (UhError.transient [badCountMsg md]) = DState.idle := by
  constructor
  · unfold InstallingHandle GetIndexOfObjectToBeInstalled
    rw [if_neg hfp]
    dsimp only
    rw [if_pos hcount]
  · rfl

/-- Witness for the amended claim C3 at a three-group descriptor. -/
theorem installing_bad_object_count_transient_w :
    InstallingHandle "" none aiiOk mdThreeGroups =
      some (InstallResult.errorState
          (UhError.transient [badCountMsg mdThreeGroups]) mdThreeGroups,
        [Ev.hwCheck], "p") ∧
    errorStateHandle (UhError.transient [badCountMsg mdThreeGroups])
      = DState.idle :=
  installing_bad_object_count_transient "" aiiOk mdThreeGroups
    (by decide) (by decide)

/-- Counterexample to claim C3 as stated: for a three-group descriptor
the Installing handler's error cause is not fatal and the Error state's
handler yields Idle, not Exit(1). -/
theorem installing_bad_object_count_fatal_cex :
    (InstallingHandle "" none aiiOk mdThreeGroups).bind
        (fun r => (installResultCause r.1).map
          (fun c => (c.isFatal, errorStateHandle c))) =
      some (false, DState.idle) := by
  decide

/-- Helper: a state whose id is the Exit id is an Exit state with some
code. -/
theorem isExit_exists (st : DState) (h : isExitState st = true) :
    ∃ c0, st = DState.exitS c0 := by
  cases st <;> first
  | exact ⟨_, rfl⟩
  | simp [isExitState] at h

/-- Claim C8, amended: in every terminating daemon run, the states the
loop held are exactly the reported ones followed by the final Exit state:
every state whose handler is invoked is reported first, while the
terminal Exit state is entered but the loop returns without reporting
it. -/
theorem daemon_reports_before_handle_except_final_exit
    (h : DState → DState) (fuel : Nat) (st : DState) (c : Int)
    (rep ent : List DState)
    (hrun : daemonRun h fuel st = some (c, rep, ent)) :
    ent = rep ++ [DState.exitS c] := by
  induction fuel generalizing st c rep ent with
  | zero => simp [daemonRun] at hrun
  | succ n ih =>
    unfold daemonRun at hrun
    split at hrun
    next hex =>
      obtain ⟨c0, hc0⟩ := isExit_exists (h st) hex
      rw [hc0] at hrun
      simp only [Option.some.injEq, Prod.mk.injEq] at hrun
      obtain ⟨hc, hr, he⟩ := hrun
      subst hc
      subst hr
      subst he
      simp [hc0, exitCodeOf]
    next hex =>
      split at hrun
      · exact absurd hrun (by simp)
      next c2 rep2 ent2 heq =>
        simp only [Option.some.injEq, Prod.mk.injEq] at hrun
        obtain ⟨hc, hr, he⟩ := hrun
        subst hc
        subst hr
        subst he
        simp [ih (h st) c2 rep2 ent2 heq]

/-- Witness for the amended claim C8 at a daemon run started on a fatal
Error state. -/
theorem daemon_reports_before_handle_except_final_exit_w :
    [DState.errorS (UhError.fatal ["x"]), DState.exitS 1] =
      [DState.errorS (UhError.fatal ["x"])] ++ [DState.exitS 1] :=
  daemon_reports_before_handle_except_final_exit hErrDaemon 2
    (DState.errorS (UhError.fatal ["x"])) 1
    [DState.errorS (UhError.fatal ["x"])]
    [DState.errorS (UhError.fatal ["x"]), DState.exitS 1] (by decide)

/-- Counterexample to claim C8 as stated: a daemon run started on a
fatal Error state enters the Exit state, yet the Exit state is absent
from the reported list, so not every entered state is reported. -/
theorem daemon_exit_state_unreported_cex :
    daemonRun hErrDaemon 2 (DState.errorS (UhError.fatal ["x"])) =
      some (1, [DState.errorS (UhError.fatal ["x"])],
        [DState.errorS (UhError.fatal ["x"]), DState.exitS 1]) ∧
    DState.exitS 1 ∉ [DState.errorS (UhError.fatal ["x"])] := by
  exact ⟨by decide, by decide⟩

/-- Claim C5, amended: whenever the UpdateCheck handler returns Idle,
polling_retries equals 1 when the probe call succeeded (the counter was
first reset to 0 and then incremented) and equals its entry value plus 1
when the probe failed with the -1 sentinel. -/
theorem updateCheck_idle_retries_formula (fuel : Nat) (s s2 : Settings)
    (md : Option UpdateMetadata) (e n1 n2 : Int)
    (h : UpdateCheckHandle fuel s md e n1 n2 = some (UCResult.idle, s2)) :
    s2.pollingRetries = (if e = -1 then s.pollingRetries else 0) + 1 := by
  unfold UpdateCheckHandle at h
  cases md with
  | some m => simp at h
  | none =>
    dsimp only at h
    split at h
    · split at h
      · simp at h
      · split at h
        · simp at h
        · simp only [Option.some.injEq, Prod.mk.injEq] at h
          obtain ⟨-, hs2⟩ := h
          subst hs2
          by_cases he : e = -1 <;> simp [he]
    · simp only [Option.some.injEq, Prod.mk.injEq] at h
      obtain ⟨-, hs2⟩ := h
      subst hs2
      by_cases he : e = -1 <;> simp [he]

/-- Witness for the amended claim C5 at a failed probe with three
accumulated retries. -/
theorem updateCheck_idle_retries_formula_w :
    ({ pollingEnabled := true, pollingInterval := 10,
       extraPollingInterval := 0, firstPoll := 0, lastPoll := 0,
       pollingRetries := 4 } : Settings).pollingRetries =
      (if (-1 : Int) = -1 then sRetries3.pollingRetries else 0) + 1 :=
  updateCheck_idle_retries_formula 1 sRetries3
    { pollingEnabled := true, pollingInterval := 10,
      extraPollingInterval := 0, firstPoll := 0, lastPoll := 0,
      pollingRetries := 4 } none (-1) 0 0 (by decide)

/-- Counterexample to claim C5 as stated: a successful probe with no
update and no extra poll returns Idle with polling_retries equal to 1,
not to its entry value 3 plus 1. -/
theorem updateCheck_idle_retries_cex :
    (UpdateCheckHandle 1 sRetries3 none 0 7 7).map
        (fun r => (r.1, r.2.pollingRetries)) = some (UCResult.idle, 1) ∧
    sRetries3.pollingRetries + 1 = 4 ∧ (1 : Int) ≠ 4 := by
  exact ⟨by decide, by decide, by decide⟩

/-- Claim C6: whenever the UpdateCheck handler returns Downloading,
polling_retries is 0, last_poll is the time observed by the handler's
first clock read, and extra_polling_interval has been cleared to zero.
The hypothesis is the Controller contract that a returned descriptor
comes with a non-negative extra-poll value. -/
theorem updateCheck_downloading_resets (fuel : Nat) (s s2 : Settings)
    (md : Option UpdateMetadata) (m : UpdateMetadata) (e n1 n2 : Int)
    (hc : ProbeContract md e)
    (h : UpdateCheckHandle fuel s md e n1 n2 =
      some (UCResult.downloading m, s2)) :
    s2.pollingRetries = 0 ∧ s2.lastPoll = n1 ∧ s2.extraPollingInterval = 0 := by
  cases md with
  | none =>
    unfold UpdateCheckHandle at h
    dsimp only at h
    split at h
    · split at h
      · simp at h
      · split at h <;> simp at h
    · simp at h
  | some x =>
    have he : (0 : Int) ≤ e := hc x rfl
    have hne : ¬ e = -1 := by omega
    unfold UpdateCheckHandle at h
    dsimp only at h
    simp only [Option.some.injEq, Prod.mk.injEq] at h
    obtain ⟨-, hs2⟩ := h
    subst hs2
    simp [hne]

/-- Witness for claim C6 at a successful probe returning a descriptor. -/
theorem updateCheck_downloading_resets_w :
    ({ pollingEnabled := true, pollingInterval := 10,
       extraPollingInterval := 0, firstPoll := 0, lastPoll := 5,
       pollingRetries := 0 } : Settings).pollingRetries = 0 ∧
    ({ pollingEnabled := true, pollingInterval := 10,
       extraPollingInterval := 0, firstPoll := 0, lastPoll := 5,
       pollingRetries := 0 } : Settings).lastPoll = 5 ∧
    ({ pollingEnabled := true, pollingInterval := 10,
       extraPollingInterval := 0, firstPoll := 0, lastPoll := 5,
       pollingRetries := 0 } : Settings).extraPollingInterval = 0 :=
  updateCheck_downloading_resets 1 sRetries3
    { pollingEnabled := true, pollingInterval := 10,
      extraPollingInterval := 0, firstPoll := 0, lastPoll := 5,
      pollingRetries := 0 } (some mdOne) mdOne 0 5 5
    (fun x hx => le_refl 0) (by decide)

/-- Helper: with a non-positive polling interval the nextPoll loop of
UpdateCheckState.Handle never exits once the start lies before now. -/
theorem nextPollLoop_none (now interval : Int) (hint : interval ≤ 0) :
    ∀ (fuel : Nat) (start : Int), start < now →
    nextPollLoop now interval fuel start = none := by
  intro fuel
  induction fuel with
  | zero => intro start hlt; simp [nextPollLoop, hlt]
  | succ n ih =>
    intro start hlt
    simp only [nextPollLoop, if_pos hlt]
    exact ih (start + interval) (by omega)

/-- Helper: with a positive polling interval the nextPoll loop exits
within now minus start steps. -/
theorem nextPollLoop_term (now interval : Int) (hp : 0 < interval) :
    ∀ (k : Nat) (start : Int), (now - start).toNat ≤ k →
    (nextPollLoop now interval k start).isSome = true := by
  intro k
  induction k with
  | zero =>
    intro start hle
    have hge : ¬ start < now := by omega
    simp [nextPollLoop, hge]
  | succ n ih =>
    intro start hle
    by_cases hlt : start < now
    · simp only [nextPollLoop, if_pos hlt]
      exact ih (start + interval) (by omega)
    · simp [nextPollLoop, hlt]

/-- Claim C10: the UpdateCheck handler's extra-poll scheduling loop
terminates under the precondition of a positive polling interval — the
computable fuel bound ucFuel always suffices — while a non-positive
interval with a first poll whose second-truncation lies in the past and
a positive extra poll diverges: no amount of fuel produces a result. -/
theorem updateCheck_extra_poll_loop_termination :
    (∀ (s : Settings) (md : Option UpdateMetadata) (e n1 n2 : Int),
        0 < s.pollingInterval →
        (UpdateCheckHandle (ucFuel s n2) s md e n1 n2).isSome = true) ∧
    (∀ (s : Settings) (e n1 n2 : Int) (fuel : Nat),
        s.pollingInterval ≤ 0 → unixSecTrunc s.firstPoll < n2 → 0 < e →
        UpdateCheckHandle fuel s none e n1 n2 = none) := by
  constructor
  · intro s md e n1 n2 hp
    unfold UpdateCheckHandle
    cases md with
    | some m => simp
    | none =>
      dsimp only
      by_cases he : e > 0
      · rw [if_pos he]
        have hloop := nextPollLoop_term n2 s.pollingInterval hp (ucFuel s n2)
          (unixSecTrunc s.firstPoll) (by unfold ucFuel; omega)
        obtain ⟨v, hv⟩ := Option.isSome_iff_exists.mp hloop
        rw [hv]
        dsimp only
        split <;> rfl
      · rw [if_neg he]
        simp
  · intro s e n1 n2 fuel hint hpast he
    unfold UpdateCheckHandle
    dsimp only
    rw [if_pos he,
      nextPollLoop_none n2 s.pollingInterval hint fuel (unixSecTrunc s.firstPoll)
        hpast]

/-- Witness for claim C10: a positive-interval run reaches a result with
the computed fuel, and a zero-interval run with a past first poll and a
positive extra poll yields none at a sample fuel. -/
theorem updateCheck_extra_poll_loop_termination_w :
    (UpdateCheckHandle (ucFuel sPos3 10) sPos3 none 5 10 10).isSome = true ∧
    UpdateCheckHandle 7 sZeroInterval none 5 10 10 = none := by
  constructor
  · exact updateCheck_extra_poll_loop_termination.1 sPos3 none 5 10 10 (by decide)
  · exact updateCheck_extra_poll_loop_termination.2 sZeroInterval 5 10 10 7
      (by decide) (by decide) (by decide)

/-- Helper: under a positive time step no larger than the interval, the
polling loop started at a ticks count below the tick quota runs without
panicking and fires exactly when the quota is reached. -/
theorem pollRun_fires (interval timeStep : Int) (hts : 0 < timeStep)
    (hit : timeStep ≤ interval) :
    ∀ (n : Nat) (t : Int), 0 ≤ t → t < Int.tdiv interval timeStep →
    pollRun interval timeStep n t =
      if t + (n : Int) < Int.tdiv interval timeStep then
        some (t + (n : Int), false)
      else
        some (Int.tdiv interval timeStep, true) := by
  have hidiv : Int.tdiv interval timeStep = interval / timeStep :=
    Int.tdiv_eq_ediv (by omega) (by omega)
  have hq1 : 1 ≤ Int.tdiv interval timeStep := by
    rw [hidiv, Int.le_ediv_iff_mul_le hts]
    omega
  intro n
  induction n with
  | zero =>
    intro t ht0 htq
    simp only [pollRun, Nat.cast_zero, add_zero]
    rw [if_pos htq]
  | succ n ih =>
    intro t ht0 htq
    have htsne : ¬ timeStep = 0 := by omega
    have hqne : ¬ Int.tdiv interval timeStep = 0 := by omega
    have ht1 : t + 1 > 0 := by omega
    by_cases heq : t + 1 = Int.tdiv interval timeStep
    · have hmod : Int.tmod (t + 1) (Int.tdiv interval timeStep) = 0 := by
        rw [heq, Int.tmod_eq_emod (by omega) (by omega)]
        exact Int.emod_self
      have hcond : pollCond interval timeStep (t + 1) = some true := by
        simp [pollCond, ht1, htsne, hqne, hmod]
      simp only [pollRun, hcond]
      rw [if_neg (by push_cast; omega), heq]
    · have hlt : t + 1 < Int.tdiv interval timeStep := by omega
      have hmod : Int.tmod (t + 1) (Int.tdiv interval timeStep) = t + 1 := by
        rw [Int.tmod_eq_emod (by omega) (by omega)]
        exact Int.emod_eq_of_lt (by omega) hlt
      have hne0 : ¬ (t + 1 = 0) := by omega
      have hcond : pollCond interval timeStep (t + 1) = some false := by
        simp [pollCond, ht1, htsne, hqne, hmod, hne0]
      simp only [pollRun, hcond]
      rw [ih (t + 1) (by omega) hlt]
      have hcast : t + 1 + (n : Int) = t + ((n + 1 : Nat) : Int) := by
        push_cast
        ring
      rw [hcast]

/-- Claim C9: with a positive time step, a tick quota of zero (interval
divided by time step truncating to zero) makes the first tick of a fresh
Poll state hit the unguarded remainder-by-zero panic, while under the
precondition that the interval is at least the time step the loop is
panic-free and fires its single UpdateCheck transition exactly when the
tick count reaches the quota interval divided by time step. -/
theorem poll_tick_semantics (interval timeStep : Int) (hts : 0 < timeStep) :
    (Int.tdiv interval timeStep = 0 → pollRun interval timeStep 1 0 = none) ∧
    (timeStep ≤ interval → ∀ n : Nat,
      pollRun interval timeStep n 0 =
        if (n : Int) < Int.tdiv interval timeStep then some ((n : Int), false)
        else some (Int.tdiv interval timeStep, true)) := by
  constructor
  · intro hq
    have htsne : ¬ timeStep = 0 := by omega
    simp [pollRun, pollCond, htsne, hq]
  · intro hit n
    have hq1 : 1 ≤ Int.tdiv interval timeStep := by
      rw [Int.tdiv_eq_ediv (by omega) (by omega), Int.le_ediv_iff_mul_le hts]
      omega
    have h := pollRun_fires interval timeStep hts hit n 0 le_rfl (by omega)
    rw [h]
    simp

/-- Witness for claim C9: a zero quota panics on the first tick, and a
quota of three with interval six and time step two fires at the third
tick. -/
theorem poll_tick_semantics_w :
    pollRun 0 2 1 0 = none ∧ pollRun 6 2 5 0 = some (3, true) := by
  constructor
  · exact (poll_tick_semantics 0 2 (by decide)).1 (by decide)
  · have h := (poll_tick_semantics 6 2 (by decide)).2 (by decide) 5
    rw [h]
    decide

/-- Claim C7, amended: after an otherwise successful probe exchange, an
absent Add-Extra-Poll header yields a zero extra-poll duration without
error, a present well-formed header yields its parsed value without
error, and a present malformed header makes the probe fail with an error
(and a zero duration and no metadata). -/
theorem checkUpdate_extra_poll_header (r : ProbeResponse)
    (mdOpt : Option UpdateMetadata)
    (hok : processUpgradeResponse r = Except.ok mdOpt) :
    checkUpdateResult r none = (mdOpt, 0, none) ∧
    (∀ (v : List String) (n : Int), parseGoInt (String.join v) = some n →
      checkUpdateResult r (some v) = (mdOpt, n, none)) ∧
    (∀ v : List String, parseGoInt (String.join v) = none →
      checkUpdateResult r (some v) = (none, 0, some extraPollHeaderErrMsg)) := by
  refine ⟨?_, ?_, ?_⟩
  · unfold checkUpdateResult
    rw [hok]
  · intro v n hp
    unfold checkUpdateResult
    rw [hok]
    dsimp only
    rw [hp]
  · intro v hp
    unfold checkUpdateResult
    rw [hok]
    dsimp only
    rw [hp]

/-- Witness for the amended claim C7 at a 404 probe response with an
absent header and with a well-formed header. -/
theorem checkUpdate_extra_poll_header_w :
    checkUpdateResult rNotFound none = (none, 0, none) ∧
    checkUpdateResult rNotFound (some ["42"]) = (none, 42, none) := by
  have h := checkUpdate_extra_poll_header rNotFound none (by rfl)
  exact ⟨h.1, h.2.1 ["42"] 42 (by decide)⟩

/-- Counterexample to claim C7 as stated: a malformed Add-Extra-Poll
header on an otherwise successful probe produces an error rather than a
zero duration without error. -/
theorem checkUpdate_malformed_header_error_cex :
    (checkUpdateResult rNotFound (some ["abc"])).2.1 = 0 ∧
    (checkUpdateResult rNotFound (some ["abc"])).2.2.isSome = true := by
  exact ⟨by decide, by decide⟩
